/-
Verification of the ship-data CLI (titanic.py) against its natural-language
specification.  The Python source is shallowly embedded: the dataset is a list
of records, Python floats are modelled as rationals, and the side effects of
each routine (printed lines, image files written) are modelled as an explicit
list of effects returned by the embedded function.
-/
import Mathlib

/-! ### Models of Python string / numeric primitives -/

/-- Interpretation of a nonempty list of decimal digit characters as a natural
number; `none` when the list is empty or contains a non-digit. -/
def digitsToNat (l : List Char) : Option Nat :=
  if l.isEmpty then none
  else l.foldlM (fun acc c => if c.isDigit then some (acc * 10 + (c.toNat - 48)) else none) 0

/-- Unsigned part of Python `float(s)` on decimal literals: digits with an
optional single decimal point (`"13.5"`, `"7"`, `"7."`, `".5"`), modelled as a
rational.  Anything else fails. -/
def parseUnsigned (l : List Char) : Option Rat :=
  let ip := l.takeWhile (fun c => c ≠ '.')
  let rest := l.dropWhile (fun c => c ≠ '.')
  match rest with
  | [] => (digitsToNat ip).map (fun n => (n : Rat))
  | _ :: fp =>
    if ip.isEmpty && fp.isEmpty then none
    else do
      let ni ← if ip.isEmpty then some 0 else digitsToNat ip
      let nf ← if fp.isEmpty then some 0 else digitsToNat fp
      some ((ni : Rat) + (nf : Rat) / ((10 : Rat) ^ fp.length))

/-- Model of Python `float(s)`: optional sign followed by a decimal literal.
Returns `none` where Python raises `ValueError`.  (Python floats are modelled
as exact rationals; the exporters only test success of the coercion and the
sign of the result, so rounding is irrelevant to the verified properties.) -/
def pyFloat (s : String) : Option Rat :=
  match s.toList with
  | '-' :: rest => (parseUnsigned rest).map (fun q => -q)
  | '+' :: rest => parseUnsigned rest
  | l => parseUnsigned l

/-- Model of Python `str.isdigit()`: nonempty and all characters are digits. -/
def pyIsDigit (s : String) : Bool :=
  !s.toList.isEmpty && s.toList.all (fun c => c.isDigit)

/-- Model of Python `int(s)` on a digit string. -/
def pyInt (s : String) : Nat :=
  s.toList.foldl (fun acc c => acc * 10 + (c.toNat - 48)) 0

/-- Boolean test that `p` is a leading segment of `l`. -/
def listPrefixOf : List Char → List Char → Bool
  | [], _ => true
  | _ :: _, [] => false
  | a :: as, b :: bs => a == b && listPrefixOf as bs

/-- Boolean test that `needle` occurs contiguously inside `hay`. -/
def listSubstr (needle : List Char) : List Char → Bool
  | [] => listPrefixOf needle []
  | h :: t => listPrefixOf needle (h :: t) || listSubstr needle t

/-- Model of the Python `in` operator on strings: substring containment. -/
def pyIn (needle hay : String) : Bool :=
  listSubstr needle.toList hay.toList

/-- Accumulator loop for `pySplit`: `acc` holds the characters of the token
being built, in reverse. -/
def pySplitList : List Char → List Char → List String
  | [], acc => if acc.isEmpty then [] else [String.mk acc.reverse]
  | c :: rest, acc =>
    if c.isWhitespace then
      (if acc.isEmpty then [] else [String.mk acc.reverse]) ++ pySplitList rest []
    else
      pySplitList rest (c :: acc)

/-- Model of Python `str.split()` with no separator: split on whitespace runs,
discarding empty pieces. -/
def pySplit (s : String) : List String :=
  pySplitList s.data []

/-- Model of Python `str.strip()`: remove leading and trailing whitespace. -/
def pyStrip (s : String) : String :=
  String.mk (((s.data.dropWhile Char.isWhitespace).reverse.dropWhile Char.isWhitespace).reverse)

/-- Model of Python `str.lower()`: lowercase every character. -/
def pyLower (s : String) : String :=
  String.mk (s.data.map Char.toLower)

/-- Model of the Python slice `l[:top]` where `top` may be negative:
a nonnegative bound keeps the first `top` elements, a negative bound drops the
last `-top` elements. -/
def pySlice {α : Type} (l : List α) (top : Int) : List α :=
  if 0 ≤ top then l.take top.toNat else l.take (l.length - (-top).toNat)

/-! ### Data model -/

/-- One entry of `all_data["data"]`.  `COUNTRY` is required (the code indexes
it directly and the spec calls a missing country a data-contract violation);
every other field is optional text. -/
structure ShipRecord where
  shipname : Option String
  country : String
  type_summary : Option String
  speed : Option String
  lat : Option String
  lon : Option String
deriving DecidableEq, Repr

/-- Observable side effect of a routine: a line printed to standard output, or
an image file saved by the plotting backend (`plt.savefig`). -/
inductive Effect where
  | print (s : String)
  | saveFig (filename : String)
deriving DecidableEq, Repr

/-- Rendering of an optional string the way a Python f-string renders
`ship.get(...)`: a missing field prints as `None`. -/
def pyShowOpt : Option String → String
  | none => "None"
  | some s => s

/-! ### Aggregator (titanic.py lines 77-157) -/

/-- Embedding of `show_countries`: the list of every record's `COUNTRY` in
dataset order, paired with `sorted(list(set(...)))` — the duplicates removed
and the result sorted ascending (Python set iteration order is unspecified and
is erased by the sort; we dedup keeping first occurrences). -/
def show_countries (D : List ShipRecord) : List String × List String :=
  let country_list := D.map (fun ship => ship.country)
  let country_unique := List.insertionSort (fun a b : String => ¬(b.data < a.data)) country_list.dedup
  (country_list, country_unique)

/-- One step of the Python dict-counting idiom
`if k in d: d[k] += 1 else: d[k] = 1`, on an insertion-ordered association
list (the model of a Python dict). -/
def bump (k : String) : List (String × Nat) → List (String × Nat)
  | [] => [(k, 1)]
  | (k', c) :: rest => if k' = k then (k', c + 1) :: rest else (k', c) :: bump k rest

/-- Embedding of `count_country_ship`: frequency table over `COUNTRY`, built
by iterating the country list and bumping a dict. -/
def count_country_ship (D : List ShipRecord) : List (String × Nat) :=
  (show_countries D).1.foldl (fun d c => bump c d) []

/-- Embedding of Python `sorted(d.items(), key=lambda item: item[1],
reverse=True)`: a stable sort of the table, descending by count. -/
def sortByCountDesc (l : List (String × Nat)) : List (String × Nat) :=
  List.insertionSort (fun a b => b.2 ≤ a.2) l

/-- Embedding of `top_countries`: sort the country frequency table descending
by count and apply the Python slice `[:top]`.  (The Python parameter defaults
to 5; the CLI handler always passes it explicitly.) -/
def top_countries (D : List ShipRecord) (top : Int) : List (String × Nat) :=
  pySlice (sortByCountDesc (count_country_ship D)) top

/-- Embedding of `count_ship_by_types`: frequency table over
`ship.get("TYPE_SUMMARY", "Unknown")`. -/
def count_ship_by_types (D : List ShipRecord) : List (String × Nat) :=
  D.foldl (fun d ship => bump (ship.type_summary.getD "Unknown") d) []

/-- Sum of the counts of a frequency table. -/
def sumVals (l : List (String × Nat)) : Nat :=
  (l.map (fun p => p.2)).sum

/-- Keys of a frequency table, in insertion order. -/
def tableKeys (l : List (String × Nat)) : List String :=
  l.map (fun p => p.1)

/-! ### Search (titanic.py lines 160-180) -/

/-- Message printed by `search_ship` for a matching record. -/
def foundMsg (ship : ShipRecord) : String :=
  "\nFound: " ++ pyShowOpt ship.shipname ++ " (Country: " ++ ship.country ++
    ", Type: " ++ pyShowOpt ship.type_summary ++ ")"

/-- Loop body of `search_ship`: `q` is the already-lowercased user input and
`found` the flag accumulated so far; each match prints a `Found:` line, and
after the loop a miss prints the not-found message. -/
def searchLoop (q : String) : List ShipRecord → Bool → List Effect
  | [], found => if found then [] else [Effect.print "No ship found with that name."]
  | ship :: rest, found =>
    if pyIn q (pyLower (ship.shipname.getD "")) then
      Effect.print (foundMsg ship) :: searchLoop q rest true
    else
      searchLoop q rest found

/-- Embedding of `search_ship`: `userInput` is the line read by `input()`;
it is lowercased and substring-matched against each lowercased ship name. -/
def search_ship (D : List ShipRecord) (userInput : String) : List Effect :=
  searchLoop (pyLower userInput) D false

/-- Declarative characterisation used to state the search claims: the records
whose lowercased name contains the lowercased query, in dataset order. -/
def searchMatches (D : List ShipRecord) (userInput : String) : List ShipRecord :=
  D.filter (fun ship => pyIn (pyLower userInput) (pyLower (ship.shipname.getD "")))

/-! ### Exporters (titanic.py lines 183-275) -/

/-- Extraction loop of `create_speed_histogram`: returns
`(speeds, skipped, total)`.  Every record increments `total`; a record with a
present `SPEED` that coerces to a nonnegative number contributes its value to
`speeds`, every other record increments `skipped`. -/
def speedScan : List ShipRecord → List Rat × Nat × Nat
  | [] => ([], 0, 0)
  | ship :: rest =>
    let r := speedScan rest
    match ship.speed with
    | none => (r.1, r.2.1 + 1, r.2.2 + 1)
    | some s =>
      match pyFloat s with
      | none => (r.1, r.2.1 + 1, r.2.2 + 1)
      | some q =>
        if 0 ≤ q then (q :: r.1, r.2.1, r.2.2 + 1) else (r.1, r.2.1 + 1, r.2.2 + 1)

/-- Embedding of `create_speed_histogram`: with no valid speeds it only prints
the no-data message; otherwise it prints the three count lines, saves the
histogram to `filename` and prints the confirmation. -/
def create_speed_histogram (D : List ShipRecord) (filename : String) : List Effect :=
  let r := speedScan D
  if r.1.isEmpty then
    [Effect.print "No valid speed data found."]
  else
    [Effect.print ("Processed " ++ toString r.2.2 ++ " ships."),
     Effect.print ("Valid speed entries: " ++ toString r.1.length),
     Effect.print ("Skipped entries: " ++ toString r.2.1),
     Effect.saveFig filename,
     Effect.print ("Histogram saved to \x27" ++ filename ++ "\x27")]

/-- Extraction loop of `draw_ship_map`: returns `(lats, lons, total, skipped)`.
A record contributes a latitude and a longitude only when both fields are
present and both coerce; the appends happen after both coercions succeed, so a
failing `LON` discards the already-coerced `LAT` as well. -/
def posScan : List ShipRecord → List Rat × List Rat × Nat × Nat
  | [] => ([], [], 0, 0)
  | ship :: rest =>
    let r := posScan rest
    match ship.lat, ship.lon with
    | some la, some lo =>
      match pyFloat la with
      | none => (r.1, r.2.1, r.2.2.1 + 1, r.2.2.2 + 1)
      | some qa =>
        match pyFloat lo with
        | none => (r.1, r.2.1, r.2.2.1 + 1, r.2.2.2 + 1)
        | some qo => (qa :: r.1, qo :: r.2.1, r.2.2.1 + 1, r.2.2.2)
    | _, _ => (r.1, r.2.1, r.2.2.1 + 1, r.2.2.2 + 1)

/-- Per-record paired extraction used to state the position claims: the
coerced `(LAT, LON)` pair when both fields are present and both coerce,
`none` otherwise. -/
def pairOf (ship : ShipRecord) : Option (Rat × Rat) :=
  match ship.lat, ship.lon with
  | some la, some lo =>
    match pyFloat la, pyFloat lo with
    | some qa, some qo => some (qa, qo)
    | _, _ => none
  | _, _ => none

/-- Embedding of `draw_ship_map`: with no valid positions it only prints the
no-data message; otherwise it prints the three count lines, saves the scatter
plot to `filename` and prints the confirmation. -/
def draw_ship_map (D : List ShipRecord) (filename : String) : List Effect :=
  let r := posScan D
  if r.1.isEmpty || r.2.1.isEmpty then
    [Effect.print "No valid ship position data available."]
  else
    [Effect.print ("Processed " ++ toString r.2.2.1 ++ " ships."),
     Effect.print ("Valid position entries: " ++ toString r.1.length),
     Effect.print ("Skipped entries: " ++ toString r.2.2.2),
     Effect.saveFig filename,
     Effect.print ("Ship map saved as \x27" ++ filename ++ "\x27")]

/-! ### Dispatcher-compatible handlers (titanic.py lines 280-441) -/

/-- Embedding of `call_help`: prints the command list, ignoring its
arguments. -/
def call_help (_D : List ShipRecord) (_args : List String) : List Effect :=
  [Effect.print "Available commands:",
   Effect.print "  help",
   Effect.print "  show_countries",
   Effect.print "  top_countries <num_countries>",
   Effect.print "  ships_by_types",
   Effect.print "  search_ship",
   Effect.print "  speed_histogram",
   Effect.print "  draw_map",
   Effect.print "  exit"]

/-- Embedding of `call_show_countries`: prints each unique country on its own
line, ignoring its arguments. -/
def call_show_countries (D : List ShipRecord) (_args : List String) : List Effect :=
  (show_countries D).2.map (fun c => Effect.print c)

/-- Embedding of `call_top_countries`: exactly one argument that passes
`isdigit()` is required; otherwise a usage or error message is printed.  On
success the header and the top-N lines are printed. -/
def call_top_countries (D : List ShipRecord) (args : List String) : List Effect :=
  match args with
  | [a] =>
    if !pyIsDigit a then
      [Effect.print "Error: The argument must be a positive integer."]
    else
      Effect.print ("\nTop " ++ toString (pyInt a) ++ " Countries by Ship Count:\n") ::
        (top_countries D (pyInt a : Nat)).map
          (fun p => Effect.print (p.1 ++ ": " ++ toString p.2))
  | _ => [Effect.print "Usage: top_countries <num_countries>"]

/-- Embedding of `call_show_ship_types`: any argument triggers the usage
message; otherwise the type counts are printed descending by count. -/
def call_show_ship_types (D : List ShipRecord) (args : List String) : List Effect :=
  match args with
  | _ :: _ => [Effect.print "Usage: ships_by_types (no arguments)"]
  | [] =>
    (sortByCountDesc (count_ship_by_types D)).map
      (fun p => Effect.print (p.1 ++ ": " ++ toString p.2))

/-- Embedding of `call_search_ship`: any argument triggers the usage message;
otherwise it runs `search_ship` on the query line read by `input()`
(passed here explicitly as `query`). -/
def call_search_ship (D : List ShipRecord) (query : String) (args : List String) : List Effect :=
  match args with
  | _ :: _ => [Effect.print "Usage: search_ship (no arguments)"]
  | [] => search_ship D query

/-- Embedding of `call_speed_histogram`: the filename defaults to
`ship_speed_histogram.png` and is replaced by the argument only when exactly
one argument is given; the export then runs unconditionally. -/
def call_speed_histogram (D : List ShipRecord) (args : List String) : List Effect :=
  match args with
  | [f] => create_speed_histogram D f
  | _ => create_speed_histogram D "ship_speed_histogram.png"

/-- Embedding of `call_draw_map`: the filename defaults to `ship_map.png` and
is replaced by the argument only when exactly one argument is given; the
export then runs unconditionally. -/
def call_draw_map (D : List ShipRecord) (args : List String) : List Effect :=
  match args with
  | [f] => draw_ship_map D f
  | _ => draw_ship_map D "ship_map.png"

/-- Embedding of `exit_cli`: prints the farewell and raises `SystemExit`;
the raise is modelled by the `true` flag, which the loop turns into
termination. -/
def exit_cli (_D : List ShipRecord) (_args : List String) : List Effect × Bool :=
  ([Effect.print "Exiting CLI."], true)

/-! ### The dispatch loop (titanic.py lines 446-484) -/

/-- State of the read-eval-print loop. -/
inductive CliState where
  | RUNNING
  | TERMINATED
deriving DecidableEq, Repr

/-- One event seen by the loop: a line read from standard input, or a
`KeyboardInterrupt` raised during the blocking read. -/
inductive CliInput where
  | line (s : String)
  | interrupt
deriving DecidableEq, Repr

/-- Embedding of the `dispatcher` dictionary: command names mapped to
handlers.  `q` is the query line that `call_search_ship` would read; every
handler returns its effects and a flag marking a raised `SystemExit`. -/
def dispatcher (q : String) :
    List (String × (List ShipRecord → List String → List Effect × Bool)) :=
  [("help", fun D args => (call_help D args, false)),
   ("show_countries", fun D args => (call_show_countries D args, false)),
   ("top_countries", fun D args => (call_top_countries D args, false)),
   ("ships_by_types", fun D args => (call_show_ship_types D args, false)),
   ("search_ship", fun D args => (call_search_ship D q args, false)),
   ("speed_histogram", fun D args => (call_speed_histogram D args, false)),
   ("draw_map", fun D args => (call_draw_map D args, false)),
   ("exit", fun D args => exit_cli D args)]

/-- Guidance printed for an unknown command. -/
def unknownCommandMsg : String :=
  "Unknown command. Type \x27help\x27 to see available commands."

/-- One iteration of the `while True` loop of `visualize_cli` on one input
event: strip the line; an empty line is a no-op; otherwise split into command
and arguments, look the command up in the dispatcher and run its handler (a
raised `SystemExit` terminates the loop); an unknown command prints guidance.
A `KeyboardInterrupt` prints the interrupted message and terminates. -/
def cliStep (D : List ShipRecord) (q : String) : CliInput → CliState × List Effect
  | CliInput.interrupt => (CliState.TERMINATED, [Effect.print "\nCLI interrupted. Exiting."])
  | CliInput.line s =>
    let user_input := pyStrip s
    if user_input = "" then (CliState.RUNNING, [])
    else
      match pySplit user_input with
      | [] => (CliState.RUNNING, [])
      | command :: args =>
        match List.lookup command (dispatcher q) with
        | some handler =>
          let r := handler D args
          (if r.2 then CliState.TERMINATED else CliState.RUNNING, r.1)
        | none => (CliState.RUNNING, [Effect.print unknownCommandMsg])

/-! ### Helper lemmas -/

theorem sumVals_nil : sumVals [] = 0 := rfl

theorem sumVals_cons (p : String × Nat) (l : List (String × Nat)) :
    sumVals (p :: l) = p.2 + sumVals l := by
  simp [sumVals]

theorem sumVals_bump (k : String) (l : List (String × Nat)) :
    sumVals (bump k l) = sumVals l + 1 := by
  induction l with
  | nil => simp [bump, sumVals]
  | cons p rest ih =>
    obtain ⟨k', c⟩ := p
    by_cases h : k' = k
    · simp [bump, h, sumVals_cons]
      omega
    · simp [bump, h, sumVals_cons, ih]
      omega

theorem sumVals_foldl_bump {α : Type} (key : α → String) :
    ∀ (l : List α) (acc : List (String × Nat)),
      sumVals (l.foldl (fun d x => bump (key x) d) acc) = sumVals acc + l.length
  | [], _ => by simp
  | x :: xs, acc => by
    rw [List.foldl_cons, sumVals_foldl_bump key xs (bump (key x) acc), sumVals_bump]
    simp
    omega

theorem tableKeys_nil : tableKeys [] = [] := rfl

theorem tableKeys_cons (p : String × Nat) (l : List (String × Nat)) :
    tableKeys (p :: l) = p.1 :: tableKeys l := by
  simp [tableKeys]

theorem tableKeys_bump (k : String) (l : List (String × Nat)) :
    tableKeys (bump k l) =
      if k ∈ tableKeys l then tableKeys l else tableKeys l ++ [k] := by
  induction l with
  | nil => simp [bump, tableKeys]
  | cons p rest ih =>
    obtain ⟨k', c⟩ := p
    by_cases h : k' = k
    · subst h
      simp [bump, tableKeys_cons]
    · have h' : ¬k = k' := fun e => h e.symm
      simp only [bump, if_neg h, tableKeys_cons, ih, List.mem_cons, h', false_or]
      by_cases hk : k ∈ tableKeys rest
      · simp [hk]
      · simp [hk]

theorem mem_tableKeys_bump (a k : String) (l : List (String × Nat)) :
    a ∈ tableKeys (bump k l) ↔ a ∈ tableKeys l ∨ a = k := by
  rw [tableKeys_bump]
  by_cases hk : k ∈ tableKeys l
  · simp only [if_pos hk]
    constructor
    · exact Or.inl
    · rintro (h | rfl)
      · exact h
      · exact hk
  · simp [if_neg hk]

theorem nodup_tableKeys_bump (k : String) (l : List (String × Nat))
    (h : (tableKeys l).Nodup) : (tableKeys (bump k l)).Nodup := by
  rw [tableKeys_bump]
  by_cases hk : k ∈ tableKeys l
  · simpa [if_pos hk] using h
  · simp [if_neg hk, List.nodup_append, h, hk]

theorem nodup_tableKeys_foldl_bump {α : Type} (key : α → String) :
    ∀ (l : List α) (acc : List (String × Nat)),
      (tableKeys acc).Nodup →
      (tableKeys (l.foldl (fun d x => bump (key x) d) acc)).Nodup
  | [], _, h => h
  | x :: xs, acc, h => by
    rw [List.foldl_cons]
    exact nodup_tableKeys_foldl_bump key xs (bump (key x) acc) (nodup_tableKeys_bump _ _ h)

theorem mem_tableKeys_foldl_bump {α : Type} (key : α → String) (a : String) :
    ∀ (l : List α) (acc : List (String × Nat)),
      a ∈ tableKeys (l.foldl (fun d x => bump (key x) d) acc) ↔
        a ∈ tableKeys acc ∨ a ∈ l.map key
  | [], acc => by simp
  | x :: xs, acc => by
    rw [List.foldl_cons, mem_tableKeys_foldl_bump key a xs (bump (key x) acc),
      mem_tableKeys_bump]
    simp only [List.map_cons, List.mem_cons]
    tauto

theorem listPrefixOf_nil (l : List Char) : listPrefixOf [] l = true := by
  cases l <;> rfl

theorem listSubstr_nil (l : List Char) : listSubstr [] l = true := by
  induction l with
  | nil => rfl
  | cons h t ih => simp [listSubstr, listPrefixOf_nil]

theorem searchLoop_eq (q : String) :
    ∀ (l : List ShipRecord) (found : Bool),
      searchLoop q l found =
        (l.filter (fun s => pyIn q (pyLower (s.shipname.getD "")))).map
            (fun s => Effect.print (foundMsg s)) ++
          (if l.filter (fun s => pyIn q (pyLower (s.shipname.getD ""))) = [] ∧ found = false
            then [Effect.print "No ship found with that name."] else [])
  | [], found => by
    cases found <;> simp [searchLoop]
  | ship :: rest, found => by
    by_cases h : pyIn q (pyLower (ship.shipname.getD ""))
    · simp [searchLoop, h, searchLoop_eq q rest true, List.filter_cons]
    · simp [searchLoop, h, searchLoop_eq q rest found, List.filter_cons]

theorem speedScan_counts : ∀ (D : List ShipRecord),
    (speedScan D).2.2 = (speedScan D).1.length + (speedScan D).2.1 ∧
      (speedScan D).2.2 = D.length
  | [] => by simp [speedScan]
  | ship :: rest => by
    obtain ⟨ih1, ih2⟩ := speedScan_counts rest
    cases hs : ship.speed with
    | none => simp [speedScan, hs]; omega
    | some s =>
      cases hq : pyFloat s with
      | none => simp [speedScan, hs, hq]; omega
      | some q =>
        by_cases h0 : (0 : Rat) ≤ q
        · simp [speedScan, hs, hq, h0]; omega
        · simp [speedScan, hs, hq, h0]; omega

theorem posScan_counts : ∀ (D : List ShipRecord),
    (posScan D).2.2.1 = (posScan D).1.length + (posScan D).2.2.2 ∧
      (posScan D).2.2.1 = D.length
  | [] => by simp [posScan]
  | ship :: rest => by
    obtain ⟨ih1, ih2⟩ := posScan_counts rest
    cases hla : ship.lat with
    | none => simp [posScan, hla]; omega
    | some la =>
      cases hlo : ship.lon with
      | none => simp [posScan, hla, hlo]; omega
      | some lo =>
        cases hqa : pyFloat la with
        | none => simp [posScan, hla, hlo, hqa]; omega
        | some qa =>
          cases hqb : pyFloat lo with
          | none => simp [posScan, hla, hlo, hqa, hqb]; omega
          | some qo => simp [posScan, hla, hlo, hqa, hqb]; omega

theorem posScan_eq_filterMap : ∀ (D : List ShipRecord),
    (posScan D).1 = (D.filterMap pairOf).map Prod.fst ∧
      (posScan D).2.1 = (D.filterMap pairOf).map Prod.snd
  | [] => by simp [posScan]
  | ship :: rest => by
    obtain ⟨ih1, ih2⟩ := posScan_eq_filterMap rest
    cases hla : ship.lat with
    | none => simp [posScan, pairOf, hla, ih1, ih2]
    | some la =>
      cases hlo : ship.lon with
      | none => simp [posScan, pairOf, hla, hlo, ih1, ih2]
      | some lo =>
        cases hqa : pyFloat la with
        | none => simp [posScan, pairOf, hla, hlo, hqa, ih1, ih2]
        | some qa =>
          cases hqb : pyFloat lo with
          | none => simp [posScan, pairOf, hla, hlo, hqa, hqb, ih1, ih2]
          | some qo => simp [posScan, pairOf, hla, hlo, hqa, hqb, ih1, ih2]

theorem sortByCountDesc_perm (l : List (String × Nat)) :
    (sortByCountDesc l).Perm l :=
  List.perm_insertionSort _ l

theorem sortByCountDesc_sorted (l : List (String × Nat)) :
    (sortByCountDesc l).Pairwise (fun a b => b.2 ≤ a.2) := by
  haveI : IsTotal (String × Nat) (fun a b => b.2 ≤ a.2) := ⟨fun a b => le_total b.2 a.2⟩
  haveI : IsTrans (String × Nat) (fun a b => b.2 ≤ a.2) :=
    ⟨fun a b c hab hbc => le_trans hbc hab⟩
  exact List.sorted_insertionSort _ l

theorem strData_le_iff (a b : String) : (¬(b.data < a.data)) ↔ a ≤ b := by
  rw [show (b.data : List Char) = b.toList from rfl,
    show (a.data : List Char) = a.toList from rfl, ← String.lt_iff_toList_lt]
  exact not_lt

theorem sorted_unique_countries (D : List ShipRecord) :
    (show_countries D).2.Pairwise (fun a b => a < b) := by
  haveI : IsTotal String (fun a b => ¬(b.data < a.data)) :=
    ⟨fun a b => by
      rw [strData_le_iff, strData_le_iff]
      exact le_total a b⟩
  haveI : IsTrans String (fun a b => ¬(b.data < a.data)) :=
    ⟨fun a b c hab hbc => by
      rw [strData_le_iff] at *
      exact le_trans hab hbc⟩
  have hsorted : ((List.insertionSort (fun a b : String => ¬(b.data < a.data))
      (D.map (fun ship => ship.country)).dedup)).Pairwise
        (fun a b => ¬(b.data < a.data)) :=
    List.sorted_insertionSort _ _
  have hperm := List.perm_insertionSort (fun a b : String => ¬(b.data < a.data))
    (D.map (fun ship => ship.country)).dedup
  have hnodup := hperm.nodup_iff.mpr (List.nodup_dedup _)
  have := (List.Pairwise.and hsorted hnodup).imp
    (fun {a b} hab => lt_of_le_of_ne ((strData_le_iff a b).mp hab.1) hab.2)
  simpa [show_countries] using this

theorem mem_unique_countries (D : List ShipRecord) (c : String) :
    c ∈ (show_countries D).2 → c ∈ (show_countries D).1 := by
  simp only [show_countries]
  intro h
  have := (List.perm_insertionSort (fun a b : String => ¬(b.data < a.data)) _).mem_iff.mp h
  simpa using List.mem_dedup.mp this


theorem pySplit_empty : pySplit "" = [] := rfl

theorem lookup_dispatcher_flag (q cmd : String) (hc : cmd ≠ "exit") (D : List ShipRecord)
    (args : List String) (h : List ShipRecord → List String → List Effect × Bool)
    (hl : List.lookup cmd (dispatcher q) = some h) : (h D args).2 = false := by
  simp only [dispatcher, List.lookup] at hl
  repeat' split at hl
  all_goals try (injection hl with he; rw [← he])
  all_goals simp_all

/-! ### Claims -/

/-- C3: in both exporters, every record increments the processed total exactly
once and is counted either as a valid value or as skipped, never both and
never neither: `processed = valid + skipped`, and `processed` equals the
number of records. -/
theorem extraction_count_invariant (D : List ShipRecord) :
    (speedScan D).2.2 = (speedScan D).1.length + (speedScan D).2.1 ∧
    (posScan D).2.2.1 = (posScan D).1.length + (posScan D).2.2.2 ∧
    (speedScan D).2.2 = D.length ∧
    (posScan D).2.2.1 = D.length :=
  ⟨(speedScan_counts D).1, (posScan_counts D).1,
    (speedScan_counts D).2, (posScan_counts D).2⟩

/-- C4: the dispatch loop is a two-state machine: a step terminates exactly on
an interrupt or on a line whose first token is the `exit` command; an empty
(all-whitespace) line is a no-op that stays RUNNING, and an unknown command
prints guidance and stays RUNNING. -/
theorem cli_loop_two_state (D : List ShipRecord) (q : String) :
    (∀ i, (cliStep D q i).1 = CliState.TERMINATED ↔
      i = CliInput.interrupt ∨
        ∃ s, i = CliInput.line s ∧ (pySplit (pyStrip s)).head? = some "exit") ∧
    (∀ s, pyStrip s = "" → cliStep D q (CliInput.line s) = (CliState.RUNNING, [])) ∧
    (∀ s command args, pySplit (pyStrip s) = command :: args →
      List.lookup command (dispatcher q) = none →
      cliStep D q (CliInput.line s) =
        (CliState.RUNNING, [Effect.print unknownCommandMsg])) := by
  refine ⟨?_, ?_, ?_⟩
  · intro i
    cases i with
    | interrupt => simp [cliStep]
    | line s =>
      simp only [cliStep]
      by_cases ht : pyStrip s = ""
      · simp [ht, pySplit_empty]
      · rw [if_neg ht]
        cases hsp : pySplit (pyStrip s) with
        | nil => simp [hsp]
        | cons cmd args =>
          by_cases hc : cmd = "exit"
          · subst hc
            have hlk : List.lookup "exit" (dispatcher q) =
                some (fun d a => exit_cli d a) := rfl
            simp [hlk, exit_cli, hsp]
          · cases hlk : List.lookup cmd (dispatcher q) with
            | none => simp [hlk, hsp, hc]
            | some h =>
              have hf := lookup_dispatcher_flag q cmd hc D args h hlk
              simp [hlk, hsp, hc, hf]
  · intro s ht
    simp [cliStep, ht]
  · intro s command args hsp hlk
    have ht : ¬pyStrip s = "" := by
      intro he
      rw [he, pySplit_empty] at hsp
      exact List.noConfusion hsp
    simp [cliStep, if_neg ht, hsp, hlk]

/-- C4 witness: concrete steps — `exit` terminates, a blank line is a no-op,
an unknown command prints guidance and continues. -/
theorem cli_loop_two_state_witness :
    (cliStep [] "" (CliInput.line "exit")).1 = CliState.TERMINATED ∧
    cliStep [] "" (CliInput.line "   ") = (CliState.RUNNING, []) ∧
    cliStep [] "" (CliInput.line "bogus x") =
      (CliState.RUNNING, [Effect.print unknownCommandMsg]) :=
  ⟨((cli_loop_two_state [] "").1 (CliInput.line "exit")).mpr
      (Or.inr ⟨"exit", rfl, by decide⟩),
   (cli_loop_two_state [] "").2.1 "   " (by decide),
   (cli_loop_two_state [] "").2.2 "bogus x" "bogus" ["x"] (by decide) rfl⟩

/-- C5: an exporter that finds zero valid numeric values only prints the
informational no-data message and produces no `saveFig` effect (no file is
written). -/
theorem exporters_no_data_no_write (D : List ShipRecord) (filename : String) :
    ((speedScan D).1 = [] →
      create_speed_histogram D filename = [Effect.print "No valid speed data found."]) ∧
    ((posScan D).1 = [] ∨ (posScan D).2.1 = [] →
      draw_ship_map D filename =
        [Effect.print "No valid ship position data available."]) := by
  constructor
  · intro h
    simp [create_speed_histogram, h]
  · intro h
    rcases h with h | h <;> simp [draw_ship_map, h]

/-- C5 witness: on the empty dataset both exporters only report no data. -/
theorem exporters_no_data_no_write_witness :
    create_speed_histogram [] "x.png" = [Effect.print "No valid speed data found."] ∧
    draw_ship_map [] "y.png" = [Effect.print "No valid ship position data available."] :=
  ⟨(exporters_no_data_no_write [] "x.png").1 rfl,
   (exporters_no_data_no_write [] "y.png").2 (Or.inl rfl)⟩

/-- C6: `search_ship` prints exactly one `Found:` line per record whose
lowercased name contains the lowercased query, in dataset order, and prints
the distinct not-found message exactly when the match set is empty. -/
theorem search_ship_matches_spec (D : List ShipRecord) (query : String) :
    search_ship D query =
      (searchMatches D query).map (fun s => Effect.print (foundMsg s)) ++
        (if searchMatches D query = []
          then [Effect.print "No ship found with that name."] else []) := by
  rw [search_ship, searchLoop_eq]
  simp [searchMatches]

/-- C7: the unique-country list is strictly sorted ascending with no
duplicates, every element of it occurs in the full country list, and the full
list records each ship's country in dataset order. -/
theorem unique_countries_sorted_spec (D : List ShipRecord) :
    (show_countries D).1 = D.map (fun ship => ship.country) ∧
    (show_countries D).2.Pairwise (fun a b => a < b) ∧
    (∀ c, c ∈ (show_countries D).2 → c ∈ (show_countries D).1) :=
  ⟨rfl, sorted_unique_countries D, fun c => mem_unique_countries D c⟩

/-- Concrete dataset with a duplicated country, used as a witness input. -/
def mixedCountriesData : List ShipRecord :=
  [⟨none, "USA", none, none, none, none⟩,
   ⟨none, "USA", none, none, none, none⟩,
   ⟨none, "UK", none, none, none, none⟩]

/-- C7 witness: on a concrete dataset, an element of the unique list occurs in
the full list. -/
theorem unique_countries_sorted_spec_witness :
    ("UK" : String) ∈ (show_countries mixedCountriesData).1 :=
  (unique_countries_sorted_spec mixedCountriesData).2.2 "UK" (by decide)

/-- C8: the country counts and the type counts each sum to the total number of
records — no record is ever excluded from the count-based aggregates. -/
theorem count_aggregates_sum_spec (D : List ShipRecord) :
    sumVals (count_country_ship D) = D.length ∧
    sumVals (count_ship_by_types D) = D.length := by
  constructor
  · have h1 := sumVals_foldl_bump (fun c : String => c) (show_countries D).1 []
    have h2 : (show_countries D).1.length = D.length := by simp [show_countries]
    rw [← h2]
    simpa [count_country_ship, sumVals_nil] using h1
  · have h1 := sumVals_foldl_bump
      (fun ship : ShipRecord => ship.type_summary.getD "Unknown") D []
    simpa [count_ship_by_types, sumVals_nil] using h1

/-- C9: the latitude and longitude sequences extracted by the map exporter
always have equal length, and their element-wise pairing is exactly the list
of coerced `(LAT, LON)` pairs of the records where both fields are present
and both coerce — the pair is kept or skipped as a unit. -/
theorem position_pairs_spec (D : List ShipRecord) :
    (posScan D).1.length = (posScan D).2.1.length ∧
    (posScan D).1.zip (posScan D).2.1 = D.filterMap pairOf := by
  obtain ⟨h1, h2⟩ := posScan_eq_filterMap D
  refine ⟨?_, ?_⟩
  · rw [h1, h2]
    simp
  · rw [h1, h2, List.zip_map']
    simp

/-- C10: the empty query matches every record — search with `""` selects all
of `D` in dataset order, and on a nonempty dataset prints one `Found:` line
per record. -/
theorem empty_query_selects_all (D : List ShipRecord) :
    searchMatches D "" = D ∧
    (D ≠ [] → search_ship D "" = D.map (fun s => Effect.print (foundMsg s))) := by
  have hall : searchMatches D "" = D := by
    apply List.filter_eq_self.mpr
    intro a _
    exact listSubstr_nil _
  refine ⟨hall, ?_⟩
  intro hD
  rw [search_ship, searchLoop_eq]
  rw [show D.filter (fun s => pyIn (pyLower "") (pyLower (s.shipname.getD ""))) = D
    from hall]
  simp [hD]

/-- C10 witness: searching a one-record dataset with the empty query prints
the record's `Found:` line. -/
theorem empty_query_selects_all_witness :
    search_ship [(⟨some "Titanic", "UK", none, none, none, none⟩ : ShipRecord)] "" =
      [Effect.print (foundMsg ⟨some "Titanic", "UK", none, none, none, none⟩)] :=
  (empty_query_selects_all _).2 (by decide)

/-- Concrete two-country dataset used to exhibit the negative-slice
behaviour. -/
def twoCountriesData : List ShipRecord :=
  [⟨none, "A", none, none, none, none⟩, ⟨none, "B", none, none, none, none⟩]

/-- C1 counterexample: `n = -1` satisfies `n ≤ 0`, yet on a two-country
dataset `top_countries` returns a nonempty list — the Python slice `[:n]`
with negative `n` drops elements from the end instead of yielding the empty
sequence. -/
theorem top_countries_nonpositive_counterexample :
    (-1 : Int) ≤ 0 ∧ top_countries twoCountriesData (-1) ≠ [] := by decide

/-- C1 (amended): `top_countries D 0` is empty; for `n > 0` the result is the
`n.toNat`-prefix of the frequency table stably sorted descending by count,
with length `min n (number of table entries)`; the sorted table is a
permutation of the frequency table and is descending by count; the table's
keys are exactly the distinct countries of the dataset (no duplicates).  For
`n < 0` the code instead returns the Python slice `[:n]`, which drops the
last `-n` entries. -/
theorem top_countries_prefix_spec (D : List ShipRecord) (n : Int) :
    (n = 0 → top_countries D n = []) ∧
    (0 < n → top_countries D n =
      (sortByCountDesc (count_country_ship D)).take n.toNat) ∧
    (0 < n → (top_countries D n).length =
      min n.toNat (count_country_ship D).length) ∧
    (sortByCountDesc (count_country_ship D)).Perm (count_country_ship D) ∧
    (sortByCountDesc (count_country_ship D)).Pairwise (fun a b => b.2 ≤ a.2) ∧
    (tableKeys (count_country_ship D)).Nodup ∧
    (∀ c, c ∈ tableKeys (count_country_ship D) ↔ c ∈ (show_countries D).1) := by
  refine ⟨?_, ?_, ?_, sortByCountDesc_perm _, sortByCountDesc_sorted _, ?_, ?_⟩
  · intro h
    subst h
    simp [top_countries, pySlice]
  · intro h
    simp [top_countries, pySlice, h.le]
  · intro h
    rw [top_countries, pySlice, if_pos h.le, List.length_take,
      (sortByCountDesc_perm (count_country_ship D)).length_eq]
  · exact nodup_tableKeys_foldl_bump (fun c : String => c)
      (show_countries D).1 [] List.nodup_nil
  · intro c
    have h := mem_tableKeys_foldl_bump (fun c : String => c) c (show_countries D).1 []
    simpa [count_country_ship, tableKeys] using h

/-- C1 witness: concrete instances of the zero, positive-prefix and length
facts. -/
theorem top_countries_prefix_spec_witness :
    top_countries twoCountriesData 0 = [] ∧
    top_countries twoCountriesData 3 =
      (sortByCountDesc (count_country_ship twoCountriesData)).take ((3 : Int).toNat) ∧
    (top_countries twoCountriesData 3).length =
      min ((3 : Int).toNat) (count_country_ship twoCountriesData).length :=
  ⟨(top_countries_prefix_spec twoCountriesData 0).1 rfl,
   (top_countries_prefix_spec twoCountriesData 3).2.1 (by decide),
   (top_countries_prefix_spec twoCountriesData 3).2.2.1 (by decide)⟩

/-- Concrete one-record dataset with a valid speed, used to show the export
runs despite extra arguments. -/
def oneSpeedShipData : List ShipRecord :=
  [⟨none, "USA", none, some "10", none, none⟩]

/-- C2 counterexample: the `speed_histogram` handler called with two argument
tokens (outside its 0-or-1 contract) prints no usage message — it silently
falls back to the default filename and runs the export, including the
file-writing `saveFig` effect. -/
theorem speed_histogram_extra_args_counterexample :
    (["a.png", "b.png"] : List String).length = 2 ∧
    call_speed_histogram oneSpeedShipData ["a.png", "b.png"] =
      [Effect.print "Processed 1 ships.",
       Effect.print "Valid speed entries: 1",
       Effect.print "Skipped entries: 0",
       Effect.saveFig "ship_speed_histogram.png",
       Effect.print "Histogram saved to \x27ship_speed_histogram.png\x27"] := by
  decide

/-- C2 (amended): the `top_countries`, `ships_by_types` and `search_ship`
handlers validate their own argument arity (and, for `top_countries`, the
integer shape of the argument) and print a usage or error message on
mismatch; the `speed_histogram` and `draw_map` handlers do not — with two or
more argument tokens they ignore all arguments and run the export with the
default filename. -/
theorem handler_arity_spec (D : List ShipRecord) (q : String) (args : List String) :
    (args.length ≠ 1 →
      call_top_countries D args = [Effect.print "Usage: top_countries <num_countries>"]) ∧
    (∀ a, args = [a] → ¬pyIsDigit a →
      call_top_countries D args =
        [Effect.print "Error: The argument must be a positive integer."]) ∧
    (args ≠ [] →
      call_show_ship_types D args = [Effect.print "Usage: ships_by_types (no arguments)"]) ∧
    (args ≠ [] →
      call_search_ship D q args = [Effect.print "Usage: search_ship (no arguments)"]) ∧
    (2 ≤ args.length →
      call_speed_histogram D args = create_speed_histogram D "ship_speed_histogram.png") ∧
    (2 ≤ args.length →
      call_draw_map D args = draw_ship_map D "ship_map.png") := by
  refine ⟨?_, ?_, ?_, ?_, ?_, ?_⟩
  · intro h
    cases args with
    | nil => rfl
    | cons a t =>
      cases t with
      | nil => simp at h
      | cons b r => rfl
  · intro a ha hd
    subst ha
    simp [call_top_countries, hd]
  · intro h
    cases args with
    | nil => exact absurd rfl h
    | cons a t => rfl
  · intro h
    cases args with
    | nil => exact absurd rfl h
    | cons a t => rfl
  · intro h
    cases args with
    | nil => simp at h
    | cons a t =>
      cases t with
      | nil => simp at h
      | cons b r => rfl
  · intro h
    cases args with
    | nil => simp at h
    | cons a t =>
      cases t with
      | nil => simp at h
      | cons b r => rfl

/-- C2 witness: concrete arity mismatches — the validating handlers print
their usage messages, the exporters run with the default filename. -/
theorem handler_arity_spec_witness :
    call_top_countries [] ["a", "b"] = [Effect.print "Usage: top_countries <num_countries>"] ∧
    call_show_ship_types [] ["x"] = [Effect.print "Usage: ships_by_types (no arguments)"] ∧
    call_speed_histogram [] ["a", "b"] = create_speed_histogram [] "ship_speed_histogram.png" ∧
    call_draw_map [] ["a", "b"] = draw_ship_map [] "ship_map.png" :=
  ⟨(handler_arity_spec [] "" ["a", "b"]).1 (by decide),
   (handler_arity_spec [] "" ["x"]).2.2.1 (by decide),
   (handler_arity_spec [] "" ["a", "b"]).2.2.2.2.1 (by decide),
   (handler_arity_spec [] "" ["a", "b"]).2.2.2.2.2 (by decide)⟩
